import Mathlib

/-
Verification of the MiKan kanban tool (src/main.py) against its
natural-language specification.

The file shallowly embeds the reusable core of main.py: the date utility
(parse_date, format_date, distance_date, list_date), the urgency and
priority classifier (encode_color), the document model with its validator
(_check), the task edit operation (the inner edit closure of
Project.edit_task), the step transition candidates offered by edit_task's
buttons, and the on_close handler of the raw JSON view (disp_text).

Embedding conventions:
- Python datetime values become the DateTime structure below (calendar
  fields plus a time of day at minutes resolution, which is all this
  program ever compares or truncates); valid field combinations are
  captured by ValidDate.
- Stepping a datetime by timedelta(days=1) and comparing datetimes is
  embedded through a day-number function (rataDie): consecutive calendar
  days get consecutive numbers.
- Python exceptions that the source does not catch are embedded as Option
  results (none = the call raises); a bare try/except around a block is
  embedded by returning the unchanged state on the failing branches.
- Python dicts keyed by int become association lists.
-/

namespace MiKan

/-- Key for the tasks not to show (KEY_HIDDEN in main.py). -/
def KEY_HIDDEN : String := "hidden"

/-- Allowed levels for tasks (LEVELS in main.py). -/
def LEVELS : List String := ["critical", "high", "normal", "low"]

/-- Whether a weekday is a working day, indexed by ISO weekday 1..7
(WORKING_DAYS in main.py; index 0 is the unused None slot). -/
def WORKING_DAYS : List (Option Bool) :=
  [none, some true, some true, some true, some true, some true,
   some false, some false]

/-- Python truthiness of one WORKING_DAYS entry. -/
def truthy : Option Bool → Bool
  | none => false
  | some b => b

/-- A Python datetime.datetime value: a calendar date plus a time of day. -/
structure DateTime where
  year : Nat
  month : Nat
  day : Nat
  hour : Nat
  minute : Nat
deriving DecidableEq

/-- Gregorian leap year rule, as Python's datetime uses. -/
def isLeap (y : Nat) : Bool := (y % 4 == 0 && y % 100 != 0) || y % 400 == 0

/-- Number of days in a month, as Python's datetime validates it. -/
def daysInMonth (y m : Nat) : Nat :=
  if m = 2 then (if isLeap y then 29 else 28)
  else if m = 4 ∨ m = 6 ∨ m = 9 ∨ m = 11 then 30
  else 31

/-- Valid datetime fields: exactly those Python's datetime can hold (year
1..9999 and a real calendar day; the time of day is unconstrained here). -/
def ValidDate (dt : DateTime) : Prop :=
  1 ≤ dt.year ∧ dt.year ≤ 9999 ∧ 1 ≤ dt.month ∧ dt.month ≤ 12 ∧
    1 ≤ dt.day ∧ dt.day ≤ daysInMonth dt.year dt.month

instance (dt : DateTime) : Decidable (ValidDate dt) := by
  unfold ValidDate; infer_instance

/-- Day number of a calendar date (a fixed origin; consecutive calendar days
get consecutive numbers). This embeds Python's datetime ordering and its
timedelta(days=1) stepping for the walking loops of the source. -/
def rataDie (y m d : Nat) : Nat :=
  let y2 := if m ≤ 2 then y - 1 else y
  let m2 := if m ≤ 2 then m + 9 else m - 3
  y2 * 365 + y2 / 4 - y2 / 100 + y2 / 400 + (153 * m2 + 2) / 5 + d - 1

/-- Day number of the date part of a DateTime. -/
def rdOf (dt : DateTime) : Nat := rataDie dt.year dt.month dt.day

/-- ISO weekday (1 = Monday .. 7 = Sunday) of a day number; the anchor is
checked below against 1970-01-01 being a Thursday. -/
def isoWeekday (n : Nat) : Nat := (n + 2) % 7 + 1

/-- The working-day test the source performs on a date:
WORKING_DAYS[date.isocalendar()[2]] used as a truth value. -/
def isWorking (n : Nat) : Bool := truthy (WORKING_DAYS.getD (isoWeekday n) none)

/-- Value of one ASCII digit character, none for a non-digit. -/
def digitVal (c : Char) : Option Nat :=
  if c.isDigit then some (c.toNat - 48) else none

/-- Greedily take at most n leading digit characters (as values) off a
character list, the way strptime's %Y, %m and %d directives consume input. -/
def takeDigits : Nat → List Char → List Nat × List Char
  | 0, l => ([], l)
  | _ + 1, [] => ([], [])
  | n + 1, c :: rest =>
    match digitVal c with
    | some d => let p := takeDigits n rest; (d :: p.1, p.2)
    | none => ([], c :: rest)

/-- Numeric value of a digit list, most significant digit first. -/
def digitsVal (ds : List Nat) : Nat := ds.foldl (fun a d => a * 10 + d) 0

/-- parse_date of main.py: datetime.strptime(string, "%Y-%m-%d") with every
failure (bad format or impossible calendar date) turned into None. %Y takes
one to four digits, %m and %d take one or two, the dashes are literal,
nothing may remain after the day, and the values must form a date that
datetime accepts. The parsed value is a midnight datetime. -/
def parse_date (s : String) : Option DateTime :=
  match takeDigits 4 s.data with
  | (y1 :: ys, '-' :: r1) =>
    match takeDigits 2 r1 with
    | (m1 :: ms, '-' :: r2) =>
      match takeDigits 2 r2 with
      | (d1 :: ds, []) =>
        let y := digitsVal (y1 :: ys)
        let m := digitsVal (m1 :: ms)
        let d := digitsVal (d1 :: ds)
        if 1 ≤ y ∧ y ≤ 9999 ∧ 1 ≤ m ∧ m ≤ 12 ∧ 1 ≤ d ∧ d ≤ daysInMonth y m
        then some ⟨y, m, d, 0, 0⟩ else none
      | _ => none
    | _ => none
  | _ => none

/-- Fixed-width two-digit decimal rendering, as strftime pads %m and %d. -/
def pad2 (n : Nat) : List Char := [Nat.digitChar (n / 10 % 10), Nat.digitChar (n % 10)]

/-- Fixed-width four-digit decimal rendering, as strftime pads %Y. -/
def pad4 (n : Nat) : List Char :=
  [Nat.digitChar (n / 1000 % 10), Nat.digitChar (n / 100 % 10),
   Nat.digitChar (n / 10 % 10), Nat.digitChar (n % 10)]

/-- format_date of main.py: strftime("%Y-%m-%d"), zero padded, the time of
day discarded. -/
def format_date (dt : DateTime) : String :=
  String.mk (pad4 dt.year ++ '-' :: pad2 dt.month ++ '-' :: pad2 dt.day)

/-- Python's datetime comparison: lexicographic on the fields. -/
def dtLt (a b : DateTime) : Bool :=
  if a.year ≠ b.year then decide (a.year < b.year)
  else if a.month ≠ b.month then decide (a.month < b.month)
  else if a.day ≠ b.day then decide (a.day < b.day)
  else if a.hour ≠ b.hour then decide (a.hour < b.hour)
  else decide (a.minute < b.minute)

/-- datetime(year=d.year, month=d.month, day=d.day): truncation to midnight,
as done on both arguments of distance_date. -/
def dateOnly (dt : DateTime) : DateTime := { dt with hour := 0, minute := 0 }

/-- The count accumulated by the while loop of distance_date: countWorking s n
sums the working-day flags of the n days after day number s (the loop visits
s+1, s+2, ..., s+n; the iteration order does not change the sum). -/
def countWorking (s : Nat) : Nat → Nat
  | 0 => 0
  | n + 1 => countWorking s n + (if isWorking (s + n + 1) then 1 else 0)

/-- distance_date of main.py: truncate both ends to dates, return -1 if start
is after end, else walk one calendar day at a time from start to end counting
the working days walked onto (end is counted, start is not). -/
def distance_date (start stop : DateTime) : Int :=
  let s := dateOnly start
  let t := dateOnly stop
  if dtLt t s then -1
  else (countWorking (rdOf s) (rdOf t - rdOf s) : Int)

/-- One task record (the dict stored under data["tasks"]). The five keys are
always present in this typed embedding, so _check's key-presence and type
asserts are subsumed by typing. -/
structure Task where
  step : String
  title : String
  text : String
  level : String
  deadline : String
deriving DecidableEq

/-- The level-to-background table of encode_color. -/
def rule : List (String × String) :=
  [("critical", "#B22222"), ("high", "#FFA500"),
   ("normal", "#FDF5E6"), ("low", "#9ACD32")]

/-- encode_color of main.py. Uncaught Python exceptions are embedded as none:
a level outside the table raises KeyError at rule[task["level"]], and an
unparsable deadline makes parse_date return None, on which distance_date
raises AttributeError (None has no attribute year); the source catches
neither. -/
def encode_color (task : Task) (today : DateTime) : Option (String × String) :=
  match rule.lookup task.level with
  | none => none
  | some background =>
    match parse_date task.deadline with
    | none => none
    | some deadline =>
      let interval := distance_date today deadline
      some (background,
        if interval ≤ 1 then "#B22222"
        else if interval ≤ 3 then "#FFA500" else background)

/-- Stepping a datetime by timedelta(days=1): the next calendar day, time of
day unchanged (Python rolls the date over exactly like this in range). -/
def nextDay (dt : DateTime) : DateTime :=
  if dt.day < daysInMonth dt.year dt.month then { dt with day := dt.day + 1 }
  else if dt.month < 12 then { dt with month := dt.month + 1, day := 1 }
  else { dt with year := dt.year + 1, month := 1, day := 1 }

/-- list_date of main.py, with datetime.now() made the explicit argument now:
visit size consecutive calendar days starting at now, keeping the formatted
working days. -/
def list_date (now : DateTime) : Nat → List String
  | 0 => []
  | n + 1 =>
    (if isWorking (rdOf now) then [format_date now] else []) ++
      list_date (nextDay now) n

/-- Number of working days among the n consecutive calendar days starting at
day number s: the quantity list_date actually enumerates. -/
def countWorkingFrom (s : Nat) : Nat → Nat
  | 0 => 0
  | n + 1 => (if isWorking s then 1 else 0) + countWorkingFrom (s + 1) n

/-- Strict date order on date strings: both parse, and the first is the
earlier calendar day. It is irreflexive, so a pairwise chain of it also
gives distinctness. -/
def dateStrLt (a b : String) : Prop :=
  ∃ da db, parse_date a = some da ∧ parse_date b = some db ∧ rdOf da < rdOf db

/-- Largest day number Python's datetime can represent (9999-12-31). -/
def maxRD : Nat := rataDie 9999 12 31

/-- The project content dict: name, steps and the id-to-task mapping (ids are
ints after load's key coercion; the association list plays the Python dict,
whose keys are unique). -/
structure Data where
  name : String
  steps : List String
  tasks : List (Nat × Task)
deriving DecidableEq

/-- The per-task step test of _check: the step is a defined step or the
hidden key. -/
def stepOk (steps : List String) (t : Task) : Bool :=
  steps.contains t.step || t.step == KEY_HIDDEN

/-- _check of main.py as a total function: the message of the first failing
assert, or ok. The typed Data subsumes the key-presence and type parts of
the asserts (name is a str, steps a list, tasks a dict), leaving their
truthiness and content parts in source order. -/
def check (data : Data) : Except String Unit :=
  if data.name = "" then .error "name in project not valid"
  else if data.steps = [] then .error "steps in project not valid"
  else if (data.tasks.all fun p => stepOk data.steps p.2) = false then
    .error "tasks have invalid step"
  else if (data.tasks.all fun p => p.2.title != "") = false then
    .error "tasks have invalid title"
  else if (data.tasks.all fun p => p.2.text != "") = false then
    .error "tasks have invalid text"
  else if (data.tasks.all fun p => (parse_date p.2.deadline).isSome) = false then
    .error "tasks have invalid deadline"
  else if (data.tasks.all fun p => LEVELS.contains p.2.level) = false then
    .error "tasks have invalid level"
  else .ok ()

/-- max(tasks.keys()) of a Python dict; for a non-empty list of Nat keys,
folding max from 0 is that maximum. -/
def maxKey (tasks : List (Nat × Task)) : Nat := (tasks.map Prod.fst).foldl max 0

/-- The id expression of the inner edit closure: a negative idx means a new
task, which gets max(keys) + 1, or 0 when the task dict is empty. -/
def next_idx (data : Data) (idx : Int) : Nat :=
  if idx < 0 then (if data.tasks ≠ [] then maxKey data.tasks + 1 else 0)
  else idx.toNat

/-- Python dict assignment tasks[idx] = task on the association list: replace
in place when the key exists, else append (dict insertion order). -/
def insertTask (tasks : List (Nat × Task)) (k : Nat) (t : Task) :
    List (Nat × Task) :=
  if tasks.any (fun p => p.1 == k) then
    tasks.map (fun p => if p.1 == k then (k, t) else p)
  else tasks ++ [(k, t)]

/-- The step name behind position i of steps + [KEY_HIDDEN], the list both
the edit closure and the forward button index into. -/
def stepAt (steps : List String) (i : Nat) : String :=
  (steps ++ [KEY_HIDDEN]).getD i ""

/-- Python str.strip() on a character list: drop whitespace from both ends. -/
def stripChars (l : List Char) : List Char :=
  ((l.dropWhile Char.isWhitespace).reverse.dropWhile Char.isWhitespace).reverse

/-- Python str.strip(), as applied to the dialog text reads. -/
def pyStrip (s : String) : String := String.mk (stripChars s.data)

/-- The inner edit closure of Project.edit_task, with the dialog reads made
arguments: strip the title (a title with a newline fails the assert, which
aborts the handler changing nothing), compute the id for a new task, and
store the task when the deadline parses and the level is allowed; otherwise
nothing changes. -/
def edit (data : Data) (idx : Int) (i_step : Nat)
    (title text level deadline : String) : Data :=
  let t := pyStrip title
  if t.data.contains '\n' then data
  else
    let k := next_idx data idx
    let task : Task := ⟨stepAt data.steps i_step, t, pyStrip text, level, deadline⟩
    if (parse_date deadline).isSome && LEVELS.contains level then
      { data with tasks := insertTask data.tasks k task }
    else data

/-- The edit targets offered by the buttons of edit_task for an existing
task: indices into steps + [KEY_HIDDEN], in button order (update, back,
forward), or the single back-to-first button for a hidden task. -/
def candidates (steps : List String) (cur : String) : List Nat :=
  if cur ≠ KEY_HIDDEN then
    let i := steps.findIdx (· == cur)
    [i] ++ (if 0 < i then [i - 1] else []) ++
      (if i + 1 ≤ steps.length then [i + 1] else [])
  else [0]

/-- The on_close handler of disp_text: parsed is the outcome of json.loads
on the user-edited text (none embeds the raised parse exception); a failing
_check assert lands in the same bare except, so the previous data survives
every failure and the handler always returns. -/
def on_close (data : Data) (parsed : Option Data) : Data :=
  match parsed with
  | none => data
  | some d =>
    match check d with
    | .ok _ => d
    | .error _ => data

/-- Monday 2024-01-01 at midnight. -/
def monday0 : DateTime := ⟨2024, 1, 1, 0, 0⟩

/-- Friday 2024-01-05 at midnight. -/
def friday0 : DateTime := ⟨2024, 1, 5, 0, 0⟩

/-- Monday 2024-01-08 at midnight. -/
def monday1 : DateTime := ⟨2024, 1, 8, 0, 0⟩

/-- The minimal project document of the spec's acceptance example. -/
def minimalDoc : Data := ⟨"p", ["a"], []⟩

/-- A task whose deadline string does not parse (strptime rejects the dots). -/
def badTask : Task := ⟨"a", "t", "x", "normal", "2020.02.30"⟩

/-- A document failing the very first check (empty name). -/
def badDoc : Data := ⟨"", [], []⟩

/-- A well-shaped document containing a task whose step is neither a defined
step nor the hidden key. -/
def badStepDoc : Data := ⟨"p", ["a"], [(0, ⟨"zzz", "t", "x", "normal", "2099-01-01"⟩)]⟩

/-- A document whose single task violates the title, text, deadline and
level checks all at once (step is fine): first-failure reporting must blame
the title. -/
def badTitleLevelDoc : Data := ⟨"p", ["a"], [(0, ⟨"a", "", "", "urgent", "bad"⟩)]⟩

/-- A task with an allowed level and a deadline on Friday 2023-12-29. -/
def overdueTask : Task := ⟨"a", "t", "x", "high", "2023-12-29"⟩

/-- A document with two tasks whose largest id is 5. -/
def twoTaskDoc : Data :=
  ⟨"p", ["a"], [(0, ⟨"a", "t", "x", "normal", "2099-01-01"⟩),
                (5, ⟨"a", "u", "y", "low", "2099-01-02"⟩)]⟩

/-- Weekday anchor of the embedding: 1970-01-01 has day number 719468 and is
a Thursday (ISO weekday 4), and Monday 2024-01-01 is an ISO Monday. -/
theorem isoWeekday_anchor :
    rataDie 1970 1 1 = 719468 ∧ isoWeekday (rataDie 1970 1 1) = 4 ∧
      isoWeekday (rdOf monday0) = 1 := by
  refine ⟨by decide, by decide, by decide⟩

/-- Comparing a datetime with itself is never strict. -/
theorem dtLt_self (dt : DateTime) : dtLt dt dt = false := by
  simp [dtLt]

/-- Truncation does not move the day number. -/
theorem rdOf_dateOnly (dt : DateTime) : rdOf (dateOnly dt) = rdOf dt := rfl

/-- Appending one more day to a day-number interval. -/
theorem Ioc_succ_insert (s n : Nat) :
    Finset.Ioc s (s + n + 1) = insert (s + n + 1) (Finset.Ioc s (s + n)) := by
  ext k
  simp only [Finset.mem_Ioc, Finset.mem_insert]
  omega

/-- The loop count of distance_date is the number of working days in the
half-open day-number interval. -/
theorem countWorking_eq_card (s : Nat) (n : Nat) :
    countWorking s n
      = ((Finset.Ioc s (s + n)).filter (fun k => isWorking k = true)).card := by
  induction n with
  | zero => simp [countWorking]
  | succ n ih =>
    rw [countWorking, ih, show s + (n + 1) = s + n + 1 by omega, Ioc_succ_insert,
      Finset.filter_insert]
    by_cases hw : isWorking (s + n + 1) = true
    · rw [if_pos hw, if_pos hw, Finset.card_insert_of_not_mem]
      simp only [Finset.mem_filter, Finset.mem_Ioc]
      omega
    · rw [if_neg hw, if_neg hw, Nat.add_zero]

/-- C5: distance_date returns the sentinel -1 exactly when the truncated
start is strictly later than the truncated end (time of day ignored), and
returns 0 whenever both truncate to the same calendar date. -/
theorem distance_date_sentinel (start stop : DateTime) :
    (distance_date start stop = -1 ↔ dtLt (dateOnly stop) (dateOnly start) = true) ∧
      (dateOnly start = dateOnly stop → distance_date start stop = 0) := by
  constructor
  · constructor
    · intro h
      by_contra hc
      rw [distance_date] at h
      rw [if_neg hc] at h
      omega
    · intro h
      rw [distance_date, if_pos h]
  · intro h
    rw [distance_date, h, dtLt_self, if_neg (by simp), Nat.sub_self]
    rfl

/-- Witness for distance_date_sentinel at a concrete date. -/
theorem distance_date_sentinel_witness :
    dateOnly monday0 = dateOnly monday0 ∧ distance_date monday0 monday0 = 0 :=
  ⟨rfl, (distance_date_sentinel monday0 monday0).2 rfl⟩

/-- C4: whenever the truncated start is not after the truncated end,
distance_date counts exactly the Monday-to-Friday days in the half-open
day-number range (start, end] (end counted, start not); in particular it is
4 from Monday 2024-01-01 to Friday 2024-01-05 and 1 from Friday 2024-01-05
to Monday 2024-01-08. -/
theorem distance_date_counts_Ioc (start stop : DateTime)
    (h : dtLt (dateOnly stop) (dateOnly start) = false) :
    distance_date start stop
        = (((Finset.Ioc (rdOf start) (rdOf stop)).filter
            (fun k => isWorking k = true)).card : Int) ∧
      distance_date monday0 friday0 = 4 ∧ distance_date friday0 monday1 = 1 := by
  refine ⟨?_, by decide, by decide⟩
  rw [distance_date, if_neg (by simp [h]), countWorking_eq_card,
    rdOf_dateOnly, rdOf_dateOnly]
  by_cases hle : rdOf start ≤ rdOf stop
  · rw [Nat.add_sub_cancel' hle]
  · rw [show rdOf stop - rdOf start = 0 by omega, Nat.add_zero,
      Finset.Ioc_self, Finset.Ioc_eq_empty (by omega)]

/-- Witness for distance_date_counts_Ioc at a concrete pair of dates. -/
theorem distance_date_counts_Ioc_witness :
    dtLt (dateOnly friday0) (dateOnly monday0) = false ∧
      distance_date monday0 friday0
        = (((Finset.Ioc (rdOf monday0) (rdOf friday0)).filter
            (fun k => isWorking k = true)).card : Int) :=
  ⟨by decide, (distance_date_counts_Ioc monday0 friday0 (by decide)).1⟩

/-- C2 counterexample: on a task whose deadline does not parse the
classifier does not return normally at all; no (background, border) pair is
produced, because the parse failure propagates (distance_date raises on the
None deadline), contradicting the claimed fallback to border = background. -/
theorem encode_color_no_recovery :
    parse_date badTask.deadline = none ∧ encode_color badTask monday0 = none ∧
      ∀ c : String × String, encode_color badTask monday0 ≠ some c := by
  refine ⟨by decide, by decide, ?_⟩
  intro c
  simp [show encode_color badTask monday0 = none by decide]

/-- C2 amended: a deadline parse failure is not recovered inside
encode_color; whenever the deadline fails to parse the classifier propagates
the failure (embedded as none) instead of returning a color pair. -/
theorem encode_color_parse_failure (task : Task) (today : DateTime)
    (h : parse_date task.deadline = none) : encode_color task today = none := by
  rw [encode_color]
  cases hr : rule.lookup task.level with
  | none => rfl
  | some bg => rw [h]

/-- Witness for encode_color_parse_failure at a concrete task. -/
theorem encode_color_parse_failure_witness :
    parse_date badTask.deadline = none ∧ encode_color badTask friday0 = none :=
  ⟨by decide, encode_color_parse_failure badTask friday0 (by decide)⟩

/-- C10: a task with an allowed level whose deadline parses to a calendar
date strictly before today is always classified with the dark-red urgent
border: the overdue deadline makes distance_date return -1, which falls in
the interval <= 1 branch. -/
theorem encode_color_overdue (task : Task) (today dl : DateTime)
    (hl : task.level ∈ LEVELS)
    (hp : parse_date task.deadline = some dl)
    (hlt : dtLt (dateOnly dl) (dateOnly today) = true) :
    ∃ background, rule.lookup task.level = some background ∧
      encode_color task today = some (background, "#B22222") := by
  have hbg : ∃ bg, rule.lookup task.level = some bg := by
    simp only [LEVELS, List.mem_cons, List.not_mem_nil, or_false] at hl
    rcases hl with h | h | h | h <;> rw [h] <;> exact ⟨_, rfl⟩
  obtain ⟨bg, hbg⟩ := hbg
  have hdist : distance_date today dl = -1 := by
    rw [distance_date, if_pos hlt]
  refine ⟨bg, hbg, ?_⟩
  rw [encode_color, hbg, hp]
  show some (bg, if distance_date today dl ≤ 1 then "#B22222"
      else if distance_date today dl ≤ 3 then "#FFA500" else bg)
    = some (bg, "#B22222")
  rw [hdist]
  norm_num

/-- Witness for encode_color_overdue at a concrete overdue task. -/
theorem encode_color_overdue_witness :
    overdueTask.level ∈ LEVELS ∧
      parse_date overdueTask.deadline = some ⟨2023, 12, 29, 0, 0⟩ ∧
      dtLt (dateOnly (⟨2023, 12, 29, 0, 0⟩ : DateTime)) (dateOnly monday0) = true ∧
      ∃ background, rule.lookup overdueTask.level = some background ∧
        encode_color overdueTask monday0 = some (background, "#B22222") :=
  ⟨by decide, by decide, by decide,
    encode_color_overdue overdueTask monday0 ⟨2023, 12, 29, 0, 0⟩
      (by decide) (by decide) (by decide)⟩

/-- C8: the raw-JSON-view close handler keeps the previous document whenever
the text does not parse as JSON or the parsed document fails validation; the
handler is a total function, so neither failure escapes it. -/
theorem on_close_rejects (data : Data) (parsed : Option Data)
    (h : parsed = none ∨ ∃ d r, parsed = some d ∧ check d = .error r) :
    on_close data parsed = data := by
  rcases h with h | ⟨d, r, hp, hc⟩
  · rw [h]; rfl
  · rw [hp, on_close, hc]

/-- Witness for on_close_rejects: a rejected hand edit leaves the document. -/
theorem on_close_rejects_witness :
    ((some badDoc : Option Data) = none ∨
        ∃ d r, (some badDoc : Option Data) = some d ∧ check d = .error r) ∧
      on_close minimalDoc (some badDoc) = minimalDoc :=
  ⟨Or.inr ⟨badDoc, "name in project not valid", rfl, rfl⟩,
    on_close_rejects minimalDoc (some badDoc)
      (Or.inr ⟨badDoc, "name in project not valid", rfl, rfl⟩)⟩

/-- One failing member falsifies a List.all test. -/
theorem all_eq_false_of_bad {α : Type} (l : List α) (f : α → Bool) (x : α)
    (hx : x ∈ l) (hfx : f x = false) : l.all f = false := by
  by_contra hc
  rw [Bool.not_eq_false, List.all_eq_true] at hc
  rw [hc x hx] at hfx
  cases hfx

/-- C7: the validator evaluates its checks in the fixed source order (name,
steps, tasks container — the latter subsumed by typing — then per task the
step, title, text, deadline and level checks) and reports the reason of the
first violated one. Each conjunct assumes only that the earlier checks pass
and the named check fails, and pins the reported reason, so together with
the all-pass case they characterise check completely: a task with a bad step
is blamed for its step whatever else is wrong, an empty title is blamed
before text, deadline and level, and so on; the minimal document
{name: p, steps: [a], tasks: {}} is accepted. -/
theorem check_first_failure :
    (∀ d : Data, d.name = "" → check d = .error "name in project not valid") ∧
      (∀ d : Data, d.name ≠ "" → d.steps = [] →
        check d = .error "steps in project not valid") ∧
      (∀ d : Data, d.name ≠ "" → d.steps ≠ [] →
        (∃ p ∈ d.tasks, stepOk d.steps p.2 = false) →
        check d = .error "tasks have invalid step") ∧
      (∀ d : Data, d.name ≠ "" → d.steps ≠ [] →
        (d.tasks.all fun p => stepOk d.steps p.2) = true →
        (∃ p ∈ d.tasks, p.2.title = "") →
        check d = .error "tasks have invalid title") ∧
      (∀ d : Data, d.name ≠ "" → d.steps ≠ [] →
        (d.tasks.all fun p => stepOk d.steps p.2) = true →
        (d.tasks.all fun p => p.2.title != "") = true →
        (∃ p ∈ d.tasks, p.2.text = "") →
        check d = .error "tasks have invalid text") ∧
      (∀ d : Data, d.name ≠ "" → d.steps ≠ [] →
        (d.tasks.all fun p => stepOk d.steps p.2) = true →
        (d.tasks.all fun p => p.2.title != "") = true →
        (d.tasks.all fun p => p.2.text != "") = true →
        (∃ p ∈ d.tasks, parse_date p.2.deadline = none) →
        check d = .error "tasks have invalid deadline") ∧
      (∀ d : Data, d.name ≠ "" → d.steps ≠ [] →
        (d.tasks.all fun p => stepOk d.steps p.2) = true →
        (d.tasks.all fun p => p.2.title != "") = true →
        (d.tasks.all fun p => p.2.text != "") = true →
        (d.tasks.all fun p => (parse_date p.2.deadline).isSome) = true →
        (∃ p ∈ d.tasks, LEVELS.contains p.2.level = false) →
        check d = .error "tasks have invalid level") ∧
      (∀ d : Data, d.name ≠ "" → d.steps ≠ [] →
        (d.tasks.all fun p => stepOk d.steps p.2) = true →
        (d.tasks.all fun p => p.2.title != "") = true →
        (d.tasks.all fun p => p.2.text != "") = true →
        (d.tasks.all fun p => (parse_date p.2.deadline).isSome) = true →
        (d.tasks.all fun p => LEVELS.contains p.2.level) = true →
        check d = .ok ()) ∧
      check minimalDoc = .ok () := by
  refine ⟨?_, ?_, ?_, ?_, ?_, ?_, ?_, ?_, rfl⟩
  · intro d h
    rw [check, if_pos h]
  · intro d h1 h2
    rw [check, if_neg h1, if_pos h2]
  · intro d h1 h2 hbad
    obtain ⟨p, hp, hfail⟩ := hbad
    have hall : (d.tasks.all fun p => stepOk d.steps p.2) = false :=
      all_eq_false_of_bad _ _ p hp hfail
    rw [check, if_neg h1, if_neg h2, if_pos hall]
  · intro d h1 h2 hstep hbad
    obtain ⟨p, hp, hfail⟩ := hbad
    have hall : (d.tasks.all fun p => p.2.title != "") = false :=
      all_eq_false_of_bad _ _ p hp (by rw [hfail]; rfl)
    rw [check, if_neg h1, if_neg h2, if_neg (by rw [hstep]; decide),
      if_pos hall]
  · intro d h1 h2 hstep htitle hbad
    obtain ⟨p, hp, hfail⟩ := hbad
    have hall : (d.tasks.all fun p => p.2.text != "") = false :=
      all_eq_false_of_bad _ _ p hp (by rw [hfail]; rfl)
    rw [check, if_neg h1, if_neg h2, if_neg (by rw [hstep]; decide),
      if_neg (by rw [htitle]; decide), if_pos hall]
  · intro d h1 h2 hstep htitle htext hbad
    obtain ⟨p, hp, hfail⟩ := hbad
    have hall : (d.tasks.all fun p => (parse_date p.2.deadline).isSome) = false :=
      all_eq_false_of_bad _ _ p hp (by rw [hfail]; rfl)
    rw [check, if_neg h1, if_neg h2, if_neg (by rw [hstep]; decide),
      if_neg (by rw [htitle]; decide),
      if_neg (by rw [htext]; decide), if_pos hall]
  · intro d h1 h2 hstep htitle htext hdl hbad
    obtain ⟨p, hp, hfail⟩ := hbad
    have hall : (d.tasks.all fun p => LEVELS.contains p.2.level) = false :=
      all_eq_false_of_bad _ _ p hp hfail
    rw [check, if_neg h1, if_neg h2, if_neg (by rw [hstep]; decide),
      if_neg (by rw [htitle]; decide),
      if_neg (by rw [htext]; decide),
      if_neg (by rw [hdl]; decide), if_pos hall]
  · intro d h1 h2 hstep htitle htext hdl hlv
    rw [check, if_neg h1, if_neg h2, if_neg (by rw [hstep]; decide),
      if_neg (by rw [htitle]; decide),
      if_neg (by rw [htext]; decide),
      if_neg (by rw [hdl]; decide),
      if_neg (by rw [hlv]; decide)]

/-- Witness for check_first_failure: a concrete bad-step document is
rejected with the step message, and a document whose task has an empty
title, empty text, unparseable deadline and invalid level all at once is
rejected with the title message (the first of the later per-task checks);
the hypotheses hold at both documents. -/
theorem check_first_failure_witness :
    (badStepDoc.name ≠ "" ∧ badStepDoc.steps ≠ [] ∧
      (∃ p ∈ badStepDoc.tasks, stepOk badStepDoc.steps p.2 = false) ∧
      check badStepDoc = .error "tasks have invalid step") ∧
    (badTitleLevelDoc.name ≠ "" ∧ badTitleLevelDoc.steps ≠ [] ∧
      (badTitleLevelDoc.tasks.all fun p => stepOk badTitleLevelDoc.steps p.2) = true ∧
      (∃ p ∈ badTitleLevelDoc.tasks, p.2.title = "") ∧
      check badTitleLevelDoc = .error "tasks have invalid title") :=
  ⟨⟨by decide, by decide, by decide,
      check_first_failure.2.2.1 badStepDoc (by decide) (by decide) (by decide)⟩,
    ⟨by decide, by decide, by decide, by decide,
      check_first_failure.2.2.2.1 badTitleLevelDoc (by decide) (by decide)
        (by decide) (by decide)⟩⟩

/-- C6: for an existing task the offered edit targets are exactly update in
place at i, back to i-1 exactly when 0 < i, and forward to i+1 (always
offered, since i+1 <= len(steps) holds whenever i indexes a step); the
forward target resolves to steps[i+1] when i+1 is still a step index and to
the hidden key when i is the last index. For a hidden task the only offered
target is a return to steps[0]. -/
theorem candidates_spec :
    (∀ (steps : List String) (cur : String) (i : Nat),
        cur ≠ KEY_HIDDEN → steps.findIdx (· == cur) = i → i < steps.length →
        candidates steps cur = [i] ++ (if 0 < i then [i - 1] else []) ++ [i + 1] ∧
          stepAt steps i = steps.getD i "" ∧
          (0 < i → stepAt steps (i - 1) = steps.getD (i - 1) "") ∧
          (i + 1 < steps.length → stepAt steps (i + 1) = steps.getD (i + 1) "") ∧
          (i + 1 = steps.length → stepAt steps (i + 1) = KEY_HIDDEN)) ∧
      (∀ steps : List String, steps ≠ [] →
        candidates steps KEY_HIDDEN = [0] ∧ stepAt steps 0 = steps.getD 0 "") := by
  constructor
  · intro steps cur i hcur hidx hi
    refine ⟨?_, ?_, ?_, ?_, ?_⟩
    · rw [candidates, if_pos hcur]
      simp only [hidx]
      rw [if_pos (show i + 1 ≤ steps.length by omega)]
    · rw [stepAt, List.getD_append _ _ _ _ hi]
    · intro h0
      rw [stepAt, List.getD_append _ _ _ _ (by omega)]
    · intro hlt
      rw [stepAt, List.getD_append _ _ _ _ hlt]
    · intro heq
      rw [stepAt, List.getD_append_right _ _ _ _ (by omega), heq, Nat.sub_self]
      rfl
  · intro steps hne
    refine ⟨?_, ?_⟩
    · rw [candidates, if_neg (by simp)]
    · have : 0 < steps.length := List.length_pos.mpr hne
      rw [stepAt, List.getD_append _ _ _ _ this]

/-- Witness for candidates_spec at concrete step lists. -/
theorem candidates_spec_witness :
    (("b" : String) ≠ KEY_HIDDEN ∧ (["a", "b"] : List String).findIdx (· == "b") = 1 ∧
        1 < (["a", "b"] : List String).length ∧
        candidates ["a", "b"] "b" = [1] ++ (if 0 < 1 then [0] else []) ++ [2] ∧
        stepAt ["a", "b"] 2 = KEY_HIDDEN) ∧
      ((["a"] : List String) ≠ [] ∧ candidates ["a"] KEY_HIDDEN = [0] ∧
        stepAt ["a"] 0 = (["a"] : List String).getD 0 "") := by
  have h1 := (candidates_spec.1 ["a", "b"] "b" 1 (by decide) (by decide) (by decide))
  have h2 := candidates_spec.2 ["a"] (by decide)
  exact ⟨⟨by decide, by decide, by decide, h1.1, h1.2.2.2.2 (by decide)⟩,
    ⟨by decide, h2.1, h2.2⟩⟩

/-- Folding max from an accumulator dominates the accumulator. -/
theorem le_foldl_max_acc (l : List Nat) (a : Nat) : a ≤ l.foldl max a := by
  induction l generalizing a with
  | nil => exact Nat.le_refl a
  | cons x xs ih =>
    exact Nat.le_trans (Nat.le_max_left a x) (ih (max a x))

/-- Folding max dominates every member of the list. -/
theorem le_foldl_max_mem (l : List Nat) (b : Nat) (h : b ∈ l) :
    ∀ a, b ≤ l.foldl max a := by
  induction h with
  | head xs =>
    intro a
    exact Nat.le_trans (Nat.le_max_right a b) (le_foldl_max_acc xs (max a b))
  | tail y hmem ih =>
    intro a
    exact ih (max a y)

/-- Every existing task id is bounded by maxKey. -/
theorem key_le_maxKey (tasks : List (Nat × Task)) (p : Nat × Task) (h : p ∈ tasks) :
    p.1 ≤ maxKey tasks :=
  le_foldl_max_mem _ p.1 (List.mem_map_of_mem Prod.fst h) 0

/-- C9: adding a task (negative idx) stores it under the id max(keys) + 1
when the task dict is non-empty and under 0 when it is empty; that id is
computed from the current keys, is strictly above every existing id, and the
new entry is appended to the mapping. -/
theorem edit_add_next_id (data : Data) (i_step : Nat)
    (title text level deadline : String)
    (hn : (pyStrip title).data.contains '\n' = false)
    (hok : ((parse_date deadline).isSome && LEVELS.contains level) = true) :
    (data.tasks = [] → next_idx data (-1) = 0) ∧
      (data.tasks ≠ [] → next_idx data (-1) = maxKey data.tasks + 1) ∧
      (∀ p ∈ data.tasks, p.1 < next_idx data (-1)) ∧
      ∃ t : Task, (edit data (-1) i_step title text level deadline).tasks
        = data.tasks ++ [(next_idx data (-1), t)] := by
  have hneg : (-1 : Int) < 0 := by norm_num
  have hfresh : ∀ p ∈ data.tasks, p.1 < next_idx data (-1) := by
    intro p hp
    have hne : data.tasks ≠ [] := by
      intro he
      rw [he] at hp
      exact absurd hp (List.not_mem_nil p)
    rw [next_idx, if_pos hneg, if_pos hne]
    have := key_le_maxKey data.tasks p hp
    omega
  refine ⟨?_, ?_, hfresh, ?_⟩
  · intro h
    rw [next_idx, if_pos hneg, if_neg (by simp [h])]
  · intro h
    rw [next_idx, if_pos hneg, if_pos h]
  · have hany : (data.tasks.any fun p => p.1 == next_idx data (-1)) = false := by
      by_contra hc
      rw [Bool.not_eq_false, List.any_eq_true] at hc
      obtain ⟨p, hp, hbeq⟩ := hc
      have heq : p.1 = next_idx data (-1) := by
        rw [beq_iff_eq] at hbeq
        exact hbeq
      have := hfresh p hp
      omega
    rw [edit]
    simp only [hn, Bool.false_eq_true, if_false, hok, if_true]
    exact ⟨_, by rw [insertTask, if_neg (by rw [hany]; exact Bool.false_ne_true)]⟩

/-- Witness for edit_add_next_id on a concrete two-task document. -/
theorem edit_add_next_id_witness :
    (pyStrip "t2").data.contains '\n' = false ∧
      ((parse_date "2099-01-03").isSome && LEVELS.contains "normal") = true ∧
      next_idx twoTaskDoc (-1) = 6 := by
  have h := edit_add_next_id twoTaskDoc 0 "t2" "x2" "normal" "2099-01-03"
    (by decide) (by decide)
  exact ⟨by decide, by decide, by rw [h.2.1 (by decide)]; decide⟩

/-- C3 (code bug): starting from the valid minimal document, the add
operation accepts a whitespace-only title (the source checks only the
deadline and the level), stores the task with an empty stripped title, and
the resulting document is rejected by the code's own validator _check; a
save followed by a reload would fail its load-time _check. -/
theorem edit_stores_empty_title :
    check minimalDoc = .ok () ∧
      (edit minimalDoc (-1) 0 "  " "d" "normal" "2099-01-01").tasks
        = [(0, ⟨"a", "", "d", "normal", "2099-01-01"⟩)] ∧
      check (edit minimalDoc (-1) 0 "  " "d" "normal" "2099-01-01")
        = .error "tasks have invalid title" :=
  ⟨rfl, rfl, rfl⟩

/-- Every month has at least one day. -/
theorem one_le_daysInMonth (y m : Nat) : 1 ≤ daysInMonth y m := by
  rw [daysInMonth]
  split_ifs <;> omega

/-- No month has more than 31 days. -/
theorem daysInMonth_le_31 (y m : Nat) : daysInMonth y m ≤ 31 := by
  rw [daysInMonth]
  split_ifs <;> omega

/-- Each decimal digit character produced by Nat.digitChar parses back to
its value. -/
theorem digitVal_digitChar (k : Nat) (h : k < 10) :
    digitVal (Nat.digitChar k) = some k := by
  interval_cases k <;> decide

/-- takeDigits consumes four leading digit characters when allowed four. -/
theorem takeDigits4_pad (a b c d : Nat) (ha : a < 10) (hb : b < 10)
    (hc : c < 10) (hd : d < 10) (rest : List Char) :
    takeDigits 4 (Nat.digitChar a :: Nat.digitChar b :: Nat.digitChar c ::
        Nat.digitChar d :: rest)
      = ([a, b, c, d], rest) := by
  simp [takeDigits, digitVal_digitChar _ ha, digitVal_digitChar _ hb,
    digitVal_digitChar _ hc, digitVal_digitChar _ hd]

/-- takeDigits consumes two leading digit characters when allowed two. -/
theorem takeDigits2_pad (a b : Nat) (ha : a < 10) (hb : b < 10)
    (rest : List Char) :
    takeDigits 2 (Nat.digitChar a :: Nat.digitChar b :: rest) = ([a, b], rest) := by
  simp [takeDigits, digitVal_digitChar _ ha, digitVal_digitChar _ hb]

/-- parse_date is a left inverse of format_date on valid dates (the spec's
round-trip property, used below for the date order of formatted strings). -/
theorem parse_format (dt : DateTime) (h : ValidDate dt) :
    parse_date (format_date dt) = some ⟨dt.year, dt.month, dt.day, 0, 0⟩ := by
  obtain ⟨h1, h2, h3, h4, h5, h6⟩ := h
  have hdle : dt.day ≤ 31 := Nat.le_trans h6 (daysInMonth_le_31 dt.year dt.month)
  have hdata : (format_date dt).data
      = Nat.digitChar (dt.year / 1000 % 10) :: Nat.digitChar (dt.year / 100 % 10) ::
        Nat.digitChar (dt.year / 10 % 10) :: Nat.digitChar (dt.year % 10) :: '-' ::
        Nat.digitChar (dt.month / 10 % 10) :: Nat.digitChar (dt.month % 10) :: '-' ::
        Nat.digitChar (dt.day / 10 % 10) :: Nat.digitChar (dt.day % 10) :: [] := rfl
  have e1 := takeDigits4_pad (dt.year / 1000 % 10) (dt.year / 100 % 10)
    (dt.year / 10 % 10) (dt.year % 10) (by omega) (by omega) (by omega) (by omega)
    ('-' :: Nat.digitChar (dt.month / 10 % 10) :: Nat.digitChar (dt.month % 10) :: '-' ::
      Nat.digitChar (dt.day / 10 % 10) :: Nat.digitChar (dt.day % 10) :: [])
  have e2 := takeDigits2_pad (dt.month / 10 % 10) (dt.month % 10)
    (by omega) (by omega)
    ('-' :: Nat.digitChar (dt.day / 10 % 10) :: Nat.digitChar (dt.day % 10) :: [])
  have e3 := takeDigits2_pad (dt.day / 10 % 10) (dt.day % 10)
    (by omega) (by omega) ([] : List Char)
  have hY : digitsVal [dt.year / 1000 % 10, dt.year / 100 % 10,
      dt.year / 10 % 10, dt.year % 10] = dt.year := by
    simp only [digitsVal, List.foldl]
    omega
  have hM : digitsVal [dt.month / 10 % 10, dt.month % 10] = dt.month := by
    simp only [digitsVal, List.foldl]
    omega
  have hD : digitsVal [dt.day / 10 % 10, dt.day % 10] = dt.day := by
    simp only [digitsVal, List.foldl]
    omega
  rw [parse_date, hdata]
  simp only [e1, e2, e3, hY, hM, hD]
  rw [if_pos ⟨h1, h2, h3, h4, h5, h6⟩]

/-- Within one month, stepping the day steps the day number. -/
theorem rataDie_succ_day (y mo d : Nat) (h5 : 1 ≤ d) :
    rataDie y mo (d + 1) = rataDie y mo d + 1 := by
  simp only [rataDie]
  split_ifs
  · generalize (y - 1) * 365 + (y - 1) / 4 - (y - 1) / 100 + (y - 1) / 400 +
      (153 * (mo + 9) + 2) / 5 = X
    omega
  · generalize y * 365 + y / 4 - y / 100 + y / 400 + (153 * (mo - 3) + 2) / 5 = X
    omega

/-- Dividing the predecessor: the quotient drops exactly at multiples of 4. -/
theorem pred_div_4 (y : Nat) (h1 : 1 ≤ y) :
    (y - 1) / 4 = if y % 4 = 0 then y / 4 - 1 else y / 4 := by
  split_ifs with h <;> omega

/-- Dividing the predecessor: the quotient drops exactly at multiples of 100. -/
theorem pred_div_100 (y : Nat) (h1 : 1 ≤ y) :
    (y - 1) / 100 = if y % 100 = 0 then y / 100 - 1 else y / 100 := by
  split_ifs with h <;> omega

/-- Dividing the predecessor: the quotient drops exactly at multiples of 400. -/
theorem pred_div_400 (y : Nat) (h1 : 1 ≤ y) :
    (y - 1) / 400 = if y % 400 = 0 then y / 400 - 1 else y / 400 := by
  split_ifs with h <;> omega

set_option maxHeartbeats 1600000 in
/-- Rolling over from the last day of a month (other than December) to the
first of the next month steps the day number. -/
theorem rataDie_succ_month (y mo : Nat) (h1 : 1 ≤ y) (h3 : 1 ≤ mo)
    (hm : mo < 12) :
    rataDie y (mo + 1) 1 = rataDie y mo (daysInMonth y mo) + 1 := by
  have hLiff : isLeap y = true ↔ ((y % 4 = 0 ∧ ¬ y % 100 = 0) ∨ y % 400 = 0) := by
    simp [isLeap]
  interval_cases mo
  · show (y - 1) * 365 + (y - 1) / 4 - (y - 1) / 100 + (y - 1) / 400 + 337 + 1 - 1
        = (y - 1) * 365 + (y - 1) / 4 - (y - 1) / 100 + (y - 1) / 400 + 306 + 31 - 1 + 1
    generalize (y - 1) / 4 = p4
    generalize (y - 1) / 100 = p100
    generalize (y - 1) / 400 = p400
    omega
  · rcases hLv : isLeap y with _ | _
    · have hL : ¬ ((y % 4 = 0 ∧ ¬ y % 100 = 0) ∨ y % 400 = 0) := by
        rw [← hLiff, hLv]
        exact Bool.false_ne_true
      have hdim : daysInMonth y 2 = 28 := by
        simp [daysInMonth, hLv]
      rw [hdim]
      show y * 365 + y / 4 - y / 100 + y / 400 + 0 + 1 - 1
          = (y - 1) * 365 + (y - 1) / 4 - (y - 1) / 100 + (y - 1) / 400 + 337 + 28 - 1 + 1
      rw [pred_div_4 y h1, pred_div_100 y h1, pred_div_400 y h1]
      split_ifs <;> omega
    · have hL : (y % 4 = 0 ∧ ¬ y % 100 = 0) ∨ y % 400 = 0 := hLiff.mp hLv
      have hdim : daysInMonth y 2 = 29 := by
        simp [daysInMonth, hLv]
      rw [hdim]
      show y * 365 + y / 4 - y / 100 + y / 400 + 0 + 1 - 1
          = (y - 1) * 365 + (y - 1) / 4 - (y - 1) / 100 + (y - 1) / 400 + 337 + 29 - 1 + 1
      rw [pred_div_4 y h1, pred_div_100 y h1, pred_div_400 y h1]
      split_ifs <;> omega
  · show y * 365 + y / 4 - y / 100 + y / 400 + 31 + 1 - 1
        = y * 365 + y / 4 - y / 100 + y / 400 + 0 + 31 - 1 + 1
    generalize y / 4 = q4
    generalize y / 100 = q100
    generalize y / 400 = q400
    omega
  · show y * 365 + y / 4 - y / 100 + y / 400 + 61 + 1 - 1
        = y * 365 + y / 4 - y / 100 + y / 400 + 31 + 30 - 1 + 1
    generalize y / 4 = q4
    generalize y / 100 = q100
    generalize y / 400 = q400
    omega
  · show y * 365 + y / 4 - y / 100 + y / 400 + 92 + 1 - 1
        = y * 365 + y / 4 - y / 100 + y / 400 + 61 + 31 - 1 + 1
    generalize y / 4 = q4
    generalize y / 100 = q100
    generalize y / 400 = q400
    omega
  · show y * 365 + y / 4 - y / 100 + y / 400 + 122 + 1 - 1
        = y * 365 + y / 4 - y / 100 + y / 400 + 92 + 30 - 1 + 1
    generalize y / 4 = q4
    generalize y / 100 = q100
    generalize y / 400 = q400
    omega
  · show y * 365 + y / 4 - y / 100 + y / 400 + 153 + 1 - 1
        = y * 365 + y / 4 - y / 100 + y / 400 + 122 + 31 - 1 + 1
    generalize y / 4 = q4
    generalize y / 100 = q100
    generalize y / 400 = q400
    omega
  · show y * 365 + y / 4 - y / 100 + y / 400 + 184 + 1 - 1
        = y * 365 + y / 4 - y / 100 + y / 400 + 153 + 31 - 1 + 1
    generalize y / 4 = q4
    generalize y / 100 = q100
    generalize y / 400 = q400
    omega
  · show y * 365 + y / 4 - y / 100 + y / 400 + 214 + 1 - 1
        = y * 365 + y / 4 - y / 100 + y / 400 + 184 + 30 - 1 + 1
    generalize y / 4 = q4
    generalize y / 100 = q100
    generalize y / 400 = q400
    omega
  · show y * 365 + y / 4 - y / 100 + y / 400 + 245 + 1 - 1
        = y * 365 + y / 4 - y / 100 + y / 400 + 214 + 31 - 1 + 1
    generalize y / 4 = q4
    generalize y / 100 = q100
    generalize y / 400 = q400
    omega
  · show y * 365 + y / 4 - y / 100 + y / 400 + 275 + 1 - 1
        = y * 365 + y / 4 - y / 100 + y / 400 + 245 + 30 - 1 + 1
    generalize y / 4 = q4
    generalize y / 100 = q100
    generalize y / 400 = q400
    omega

/-- Rolling over from December 31 to January 1 steps the day number. -/
theorem rataDie_succ_year (y : Nat) (h1 : 1 ≤ y) :
    rataDie (y + 1) 1 1 = rataDie y 12 (daysInMonth y 12) + 1 := by
  show (y + 1 - 1) * 365 + (y + 1 - 1) / 4 - (y + 1 - 1) / 100 + (y + 1 - 1) / 400 +
        306 + 1 - 1
      = y * 365 + y / 4 - y / 100 + y / 400 + 275 + 31 - 1 + 1
  simp only [Nat.add_sub_cancel]
  generalize y / 4 = q4
  generalize y / 100 = q100
  generalize y / 400 = q400
  omega

/-- Stepping to the next calendar day increments the day number by one. -/
theorem rdOf_nextDay (dt : DateTime) (h : ValidDate dt) :
    rdOf (nextDay dt) = rdOf dt + 1 := by
  obtain ⟨h1, h2, h3, h4, h5, h6⟩ := h
  rw [nextDay]
  by_cases hd : dt.day < daysInMonth dt.year dt.month
  · rw [if_pos hd]
    exact rataDie_succ_day dt.year dt.month dt.day h5
  · rw [if_neg hd]
    have hdim : dt.day = daysInMonth dt.year dt.month := by omega
    by_cases hm : dt.month < 12
    · rw [if_pos hm]
      show rataDie dt.year (dt.month + 1) 1 = rataDie dt.year dt.month dt.day + 1
      rw [hdim]
      exact rataDie_succ_month dt.year dt.month h1 h3 hm
    · rw [if_neg hm]
      show rataDie (dt.year + 1) 1 1 = rataDie dt.year dt.month dt.day + 1
      have hmo : dt.month = 12 := by omega
      rw [hdim, hmo]
      exact rataDie_succ_year dt.year h1

/-- A valid date strictly below the maximal day number steps to a valid
date. -/
theorem validDate_nextDay (dt : DateTime) (h : ValidDate dt)
    (hlt : rdOf dt < maxRD) : ValidDate (nextDay dt) := by
  obtain ⟨h1, h2, h3, h4, h5, h6⟩ := h
  rw [nextDay]
  split_ifs with hd hm
  · refine ⟨h1, h2, h3, h4, ?_, ?_⟩
    · show 1 ≤ dt.day + 1
      omega
    · show dt.day + 1 ≤ daysInMonth dt.year dt.month
      omega
  · refine ⟨h1, h2, ?_, ?_, ?_, ?_⟩
    · show 1 ≤ dt.month + 1
      omega
    · show dt.month + 1 ≤ 12
      omega
    · show 1 ≤ 1
      omega
    · show 1 ≤ daysInMonth dt.year (dt.month + 1)
      exact one_le_daysInMonth dt.year (dt.month + 1)
  · have hy : dt.year ≤ 9998 := by
      by_contra hy9
      have hy2 : dt.year = 9999 := by omega
      have hmo : dt.month = 12 := by omega
      have hdd : dt.day = 31 := by
        have h31 : daysInMonth dt.year dt.month = 31 := by
          rw [hy2, hmo]
          decide
        omega
      have hrd : rdOf dt = maxRD := by
        rw [rdOf, hy2, hmo, hdd]
        rfl
      omega
    refine ⟨?_, ?_, ?_, ?_, ?_, ?_⟩
    · show 1 ≤ dt.year + 1
      omega
    · show dt.year + 1 ≤ 9999
      omega
    · show (1 : Nat) ≤ 1
      omega
    · show (1 : Nat) ≤ 12
      omega
    · show (1 : Nat) ≤ 1
      omega
    · show (1 : Nat) ≤ daysInMonth (dt.year + 1) 1
      exact one_le_daysInMonth (dt.year + 1) 1

/-- The working-day count of a window never exceeds the window width. -/
theorem countWorkingFrom_le (n : Nat) : ∀ s, countWorkingFrom s n ≤ n := by
  induction n with
  | zero =>
    intro s
    exact Nat.le_refl 0
  | succ n ih =>
    intro s
    rw [countWorkingFrom]
    have := ih (s + 1)
    split_ifs <;> omega

/-- Structure of list_date from a valid in-range start: its length counts the
working days of the walked window, every element is a parseable working date
inside the window, and the elements are in strictly increasing date order. -/
theorem list_date_aux (n : Nat) :
    ∀ now : DateTime, ValidDate now → rdOf now + n ≤ maxRD →
      (list_date now n).length = countWorkingFrom (rdOf now) n ∧
        (∀ s ∈ list_date now n, ∃ d, parse_date s = some d ∧
          isWorking (rdOf d) = true ∧ rdOf now ≤ rdOf d ∧ rdOf d < rdOf now + n) ∧
        (list_date now n).Pairwise dateStrLt := by
  induction n with
  | zero =>
    intro now hv hr
    refine ⟨rfl, ?_, List.Pairwise.nil⟩
    intro s hs
    cases hs
  | succ n ih =>
    intro now hv hr
    have hvn : ValidDate (nextDay now) := validDate_nextDay now hv (by omega)
    have hrd : rdOf (nextDay now) = rdOf now + 1 := rdOf_nextDay now hv
    obtain ⟨ihlen, ihmem, ihpw⟩ := ih (nextDay now) hvn (by omega)
    have hparse : parse_date (format_date now)
        = some ⟨now.year, now.month, now.day, 0, 0⟩ := parse_format now hv
    have hrdp : rdOf (⟨now.year, now.month, now.day, 0, 0⟩ : DateTime)
        = rdOf now := rfl
    by_cases hw : isWorking (rdOf now) = true
    · have hlist : list_date now (n + 1)
          = format_date now :: list_date (nextDay now) n := by
        rw [list_date, if_pos hw]
        rfl
      refine ⟨?_, ?_, ?_⟩
      · rw [hlist, List.length_cons, ihlen, hrd, countWorkingFrom, if_pos hw]
        omega
      · intro s hs
        rw [hlist, List.mem_cons] at hs
        rcases hs with rfl | hs
        · refine ⟨_, hparse, ?_, ?_, ?_⟩
          · rw [hrdp]
            exact hw
          · rw [hrdp]
          · rw [hrdp]
            omega
        · obtain ⟨d, hpd, hwd, hlo, hhi⟩ := ihmem s hs
          exact ⟨d, hpd, hwd, by omega, by omega⟩
      · rw [hlist]
        refine List.Pairwise.cons ?_ ihpw
        intro s hs
        obtain ⟨d, hpd, hwd, hlo, hhi⟩ := ihmem s hs
        refine ⟨_, d, hparse, hpd, ?_⟩
        rw [hrdp]
        omega
    · have hw2 : isWorking (rdOf now) = false := by
        rcases hcl : isWorking (rdOf now) with _ | _
        · rfl
        · exact absurd hcl hw
      have hlist : list_date now (n + 1) = list_date (nextDay now) n := by
        rw [list_date, if_neg hw]
        rfl
      refine ⟨?_, ?_, ?_⟩
      · rw [hlist, ihlen, hrd, countWorkingFrom, if_neg hw]
        omega
      · intro s hs
        rw [hlist] at hs
        obtain ⟨d, hpd, hwd, hlo, hhi⟩ := ihmem s hs
        exact ⟨d, hpd, hwd, by omega, by omega⟩
      · rw [hlist]
        exact ihpw

/-- C1 (amended): list_date returns the working-day dates among the size
consecutive calendar days starting at today inclusive, formatted: its length
is the number of working days in that window (so at most size, not always
exactly size); every returned string parses back to a working date; the
strings are in strictly increasing date order and hence all distinct; and
when today is a working day the walk starts with today itself. -/
theorem list_date_working_window (now : DateTime) (n : Nat)
    (hv : ValidDate now) (hr : rdOf now + n ≤ maxRD) :
    (list_date now n).length = countWorkingFrom (rdOf now) n ∧
      (list_date now n).length ≤ n ∧
      (∀ s ∈ list_date now n, ∃ d, parse_date s = some d ∧
        isWorking (rdOf d) = true) ∧
      (list_date now n).Pairwise dateStrLt ∧
      (list_date now n).Nodup ∧
      (0 < n → isWorking (rdOf now) = true →
        (list_date now n).head? = some (format_date now)) := by
  obtain ⟨hlen, hmem, hpw⟩ := list_date_aux n now hv hr
  refine ⟨hlen, ?_, ?_, hpw, ?_, ?_⟩
  · rw [hlen]
    exact countWorkingFrom_le n (rdOf now)
  · intro s hs
    obtain ⟨d, hpd, hwd, _, _⟩ := hmem s hs
    exact ⟨d, hpd, hwd⟩
  · refine List.Pairwise.imp ?_ hpw
    intro a b hab heq
    obtain ⟨da, db, hpa, hpb, hlt⟩ := hab
    rw [heq, hpb] at hpa
    injection hpa with h2
    rw [h2] at hlt
    exact lt_irrefl _ hlt
  · intro hn hw
    cases n with
    | zero => omega
    | succ m =>
      rw [list_date, if_pos hw]
      rfl

/-- C1 counterexample: the seven calendar days from Monday 2024-01-01
contain only five working days, so list_date returns 5 date strings there,
not the 7 the claim promises. -/
theorem list_date_not_exactly_n :
    (list_date monday0 7).length = 5 ∧ (list_date monday0 7).length ≠ 7 := by
  refine ⟨by decide, by decide⟩

/-- Witness for list_date_working_window at Monday 2024-01-01 with a
three-day window. -/
theorem list_date_working_window_witness :
    (ValidDate monday0 ∧ rdOf monday0 + 3 ≤ maxRD) ∧
      ((list_date monday0 3).length = countWorkingFrom (rdOf monday0) 3 ∧
        (list_date monday0 3).length ≤ 3 ∧
        (∀ s ∈ list_date monday0 3, ∃ d, parse_date s = some d ∧
          isWorking (rdOf d) = true) ∧
        (list_date monday0 3).Pairwise dateStrLt ∧
        (list_date monday0 3).Nodup ∧
        (0 < 3 → isWorking (rdOf monday0) = true →
          (list_date monday0 3).head? = some (format_date monday0))) :=
  ⟨⟨by decide, by decide⟩,
    list_date_working_window monday0 3 (by decide) (by decide)⟩

end MiKan
